import Mathlib

/-!
Verification of the MLStock Kiwoom REST client (`src/api/kiwoom_client.py`)
and the candle collector (`src/data_pipeline/collectors/candle_collector.py`).

The Python code is shallowly embedded: dictionaries become association
lists, `datetime` values become integer epoch seconds (UTC), exceptions
become `Except`/explicit error values, and the network becomes an explicit
argument describing the responses the server would give.  Side effects the
claims talk about (network calls, notifier invocations) are made observable
as counters in the return values.
-/

set_option autoImplicit false

/-- Error kinds from `src/core/exceptions.py`, plus the `tenacity.RetryError`
wrapper that the `@retry` decorator raises once all attempts are exhausted. -/
inductive MLStockError where
  | configurationError
  | authenticationError
  | rateLimitError
  | kiwoomAPIError (status : Option Nat) (payload : Option String)
  deriving Repr, DecidableEq

/-- Python `str.strip()` over a character list: drop leading and trailing
whitespace. -/
def pyStripChars (l : List Char) : List Char :=
  List.rdropWhile Char.isWhitespace (l.dropWhile Char.isWhitespace)

/-- Python `str.strip()` on a string. -/
def pyStrip (s : String) : String := ⟨pyStripChars s.data⟩

/-- Python `str.rjust(width, fill)`: left-pad to `width` with `fill`;
strings already at least `width` long are returned unchanged. -/
def pyRJust (l : List Char) (width : Nat) (fill : Char) : List Char :=
  List.replicate (width - l.length) fill ++ l

/-- Truthiness of a Python `Optional[str]`: `None` and `""` are falsy. -/
def truthyS : Option String → Bool
  | none => false
  | some s => s ≠ ""

/-- Python `a or b` on `Optional[str]` values. -/
def pyOrS (a b : Option String) : Option String :=
  if truthyS a then a else b

/-- Embedding of `KiwoomRESTClient._split_account` (kiwoom_client.py lines
238-246): extract the digit characters of the configured account number and
split them into an 8-digit account prefix and a 2-character product code,
raising `ConfigurationError` when fewer than 8 digits are present. -/
def splitAccount (account_no : String) : Except MLStockError (String × String) :=
  let digits := account_no.data.filter Char.isDigit
  if digits.length < 8 then .error .configurationError
  else if digits.length = 8 then .ok (⟨digits⟩, "01")
  else if digits.length = 9 then .ok (⟨digits.take 8⟩, ⟨pyRJust (digits.drop 8) 2 '0'⟩)
  else .ok (⟨digits.take 8⟩, ⟨(digits.drop 8).take 2⟩)

/-- Account splitting as the specification states it, for comparison with
`splitAccount`: the cases are given in the spec's order (at least 10 digits,
exactly 8, exactly 9, fewer than 8). -/
def splitAccountPerSpec (account_no : String) : Except MLStockError (String × String) :=
  let d := account_no.data.filter Char.isDigit
  if 10 ≤ d.length then .ok (⟨d.take 8⟩, ⟨(d.drop 8).take 2⟩)
  else if d.length = 8 then .ok (⟨d.take 8⟩, "01")
  else if d.length = 9 then .ok (⟨d.take 8⟩, ⟨pyRJust (d.drop 8) 2 '0'⟩)
  else .error .configurationError

/-- C3: for every configured account number, splitting the digit characters
behaves exactly as the spec describes: with at least 10 digits the prefix is
the first 8 digits and the product code digits 9-10; with exactly 8 digits
the product code is "01"; with exactly 9 the 9th digit is left-padded with
"0"; with fewer than 8 digits a `ConfigurationError` is raised. -/
theorem c3_split_account (account_no : String) :
    splitAccount account_no = splitAccountPerSpec account_no := by
  unfold splitAccount splitAccountPerSpec
  set d := account_no.data.filter Char.isDigit with hd
  rcases Nat.lt_or_ge d.length 8 with h | h
  · have h1 : ¬ 10 ≤ d.length := by omega
    have h2 : d.length ≠ 8 := by omega
    have h3 : d.length ≠ 9 := by omega
    simp [h, h1, h2, h3]
  · rcases Nat.lt_or_ge d.length 9 with h9 | h9
    · have h8 : d.length = 8 := by omega
      have h1 : ¬ d.length < 8 := by omega
      have h2 : ¬ 10 ≤ d.length := by omega
      simp [h8, h1, h2, List.take_of_length_le (Nat.le_of_eq h8)]
    · rcases Nat.lt_or_ge d.length 10 with h10 | h10
      · have h9' : d.length = 9 := by omega
        have h1 : ¬ d.length < 8 := by omega
        have h2 : ¬ 10 ≤ d.length := by omega
        have h3 : d.length ≠ 8 := by omega
        simp [h9', h1, h2, h3]
      · have h1 : ¬ d.length < 8 := by omega
        have h3 : d.length ≠ 8 := by omega
        have h4 : d.length ≠ 9 := by omega
        simp [h1, h10, h3, h4]

/-- Stripping is idempotent: `pyStripChars` of an already-stripped list is
unchanged. -/
theorem pyStripChars_idem (l : List Char) :
    pyStripChars (pyStripChars l) = pyStripChars l := by
  unfold pyStripChars
  have h1 : List.dropWhile Char.isWhitespace
      (List.rdropWhile Char.isWhitespace (l.dropWhile Char.isWhitespace)) =
      List.rdropWhile Char.isWhitespace (l.dropWhile Char.isWhitespace) := by
    rw [List.dropWhile_eq_self_iff]
    intro hl
    have hpre := List.rdropWhile_prefix Char.isWhitespace (l.dropWhile Char.isWhitespace)
    have hlen : 0 < (l.dropWhile Char.isWhitespace).length :=
      Nat.lt_of_lt_of_le hl hpre.length_le
    have hget := List.IsPrefix.getElem hpre hl
    simp only [List.get_eq_getElem, hget]
    have := List.dropWhile_get_zero_not Char.isWhitespace l hlen
    simpa [List.get_eq_getElem] using this
  rw [h1, List.rdropWhile_idempotent]

/-- String-level stripping is idempotent. -/
theorem pyStrip_idem (s : String) : pyStrip (pyStrip s) = pyStrip s :=
  congrArg String.mk (pyStripChars_idem s.data)

/-- Keys of a Python dict modelled as an insertion-ordered association list. -/
def dictKeys (d : List (String × String)) : List String := d.map Prod.fst

/-- Python `k in d` on the modelled dict. -/
def dictContains (d : List (String × String)) (k : String) : Bool :=
  d.any (fun p => p.1 == k)

/-- Python `d[k] = v`: overwrite in place when the key exists (keeping its
position, as CPython dicts do), otherwise append the new entry. -/
def dictInsert (d : List (String × String)) (k v : String) : List (String × String) :=
  if dictContains d k then d.map (fun p => if p.1 == k then (k, v) else p)
  else d ++ [(k, v)]

/-- Python `d.setdefault(k, v)`. -/
def dictSetDefault (d : List (String × String)) (k v : String) : List (String × String) :=
  if dictContains d k then d else d ++ [(k, v)]

/-- Python `d.get(k)` on the modelled dict. -/
def dictGet (d : List (String × String)) (k : String) : Option String :=
  (d.find? (fun p => p.1 == k)).map Prod.snd

/-- Python `str.lower()`, character by character. -/
def pyLower (s : String) : String := ⟨s.data.map Char.toLower⟩

/-- Python `str.upper()`, character by character. -/
def pyUpper (s : String) : String := ⟨s.data.map Char.toUpper⟩

/-- Key rewriting performed for each entry by
`KiwoomRESTClient._normalize_headers` (kiwoom_client.py lines 124-127):
strip the key, and rename it to exactly `Content-Type` when its lowercased
form is `content_type` or `content-type`. -/
def processHeaderKey (key : String) : String :=
  if pyLower (pyStrip key) = "content_type" ∨ pyLower (pyStrip key) = "content-type" then
    "Content-Type"
  else pyStrip key

/-- Loop body of `_normalize_headers` (lines 121-128): falsy (empty) keys
are skipped, all other entries are re-inserted under the processed key. -/
def normalizeStep (acc : List (String × String)) (kv : String × String) :
    List (String × String) :=
  if kv.1 = "" then acc else dictInsert acc (processHeaderKey kv.1) kv.2

/-- Embedding of `KiwoomRESTClient._normalize_headers` (kiwoom_client.py
lines 117-131): fold the entries through `normalizeStep` starting from an
empty dict, then default `Content-Type` to `application/json;charset=UTF-8`. -/
def normalizeHeaders (headers : List (String × String)) : List (String × String) :=
  dictSetDefault (headers.foldl normalizeStep []) "Content-Type" "application/json;charset=UTF-8"

/-- Processing a header key twice gives the same result as processing once. -/
theorem processHeaderKey_idem (k : String) :
    processHeaderKey (processHeaderKey k) = processHeaderKey k := by
  by_cases hc : pyLower (pyStrip k) = "content_type" ∨ pyLower (pyStrip k) = "content-type"
  · have h1 : processHeaderKey k = "Content-Type" := by rw [processHeaderKey, if_pos hc]
    rw [h1]
    decide
  · have h1 : processHeaderKey k = pyStrip k := by rw [processHeaderKey, if_neg hc]
    rw [h1, processHeaderKey, pyStrip_idem, if_neg hc]

/-- A key as they appear in the output of `_normalize_headers`: non-empty
and a fixed point of the key rewriting. -/
def GoodKey (k : String) : Prop := k ≠ "" ∧ processHeaderKey k = k

/-- Invariant of the dicts built by `_normalize_headers`: every key is a
`GoodKey` and keys are pairwise distinct. -/
def GoodDict (d : List (String × String)) : Prop :=
  (∀ kv ∈ d, GoodKey kv.1) ∧ (dictKeys d).Nodup

/-- Absence from the modelled dict is absence from its key list. -/
theorem dictContains_eq_false_iff (d : List (String × String)) (k : String) :
    dictContains d k = false ↔ k ∉ dictKeys d := by
  unfold dictContains dictKeys
  rw [List.any_eq_false]
  constructor
  · intro hall hmem
    rcases List.mem_map.mp hmem with ⟨p, hp, hpk⟩
    exact hall p hp (beq_iff_eq.mpr hpk)
  · intro hnone p hp hbeq
    exact hnone (List.mem_map.mpr ⟨p, hp, eq_of_beq hbeq⟩)

/-- `dictInsert` preserves the `_normalize_headers` dict invariant. -/
theorem dictInsert_good {d : List (String × String)} {k v : String}
    (hd : GoodDict d) (hk : GoodKey k) : GoodDict (dictInsert d k v) := by
  unfold dictInsert
  by_cases hc : dictContains d k
  · rw [if_pos hc]
    constructor
    · intro kv hkv
      rcases List.mem_map.mp hkv with ⟨p, hp, hfp⟩
      by_cases hpk : p.1 == k
      · rw [if_pos hpk] at hfp
        rw [← hfp]
        exact hk
      · rw [if_neg hpk] at hfp
        rw [← hfp]
        exact hd.1 p hp
    · have hkeys : dictKeys (d.map (fun p => if p.1 == k then (k, v) else p)) = dictKeys d := by
        unfold dictKeys
        rw [List.map_map]
        apply List.map_congr_left
        intro p _
        by_cases hpk : p.1 == k
        · simp only [Function.comp_apply, if_pos hpk]
          exact (eq_of_beq hpk).symm
        · simp only [Function.comp_apply, if_neg hpk]
      rw [hkeys]
      exact hd.2
  · rw [if_neg hc]
    constructor
    · intro kv hkv
      rcases List.mem_append.mp hkv with hmem | hmem
      · exact hd.1 kv hmem
      · rw [List.mem_singleton.mp hmem]
        exact hk
    · have hnotin : k ∉ dictKeys d :=
        (dictContains_eq_false_iff d k).mp (Bool.eq_false_iff.mpr hc)
      unfold dictKeys
      rw [List.map_append]
      simp only [List.nodup_append]
      refine ⟨hd.2, by simp, ?_⟩
      intro x hx hmem
      rw [List.mem_singleton.mp hmem] at hx
      exact hnotin hx

/-- `dictSetDefault` preserves the `_normalize_headers` dict invariant. -/
theorem dictSetDefault_good {d : List (String × String)} {k v : String}
    (hd : GoodDict d) (hk : GoodKey k) : GoodDict (dictSetDefault d k v) := by
  unfold dictSetDefault
  by_cases hc : dictContains d k
  · rw [if_pos hc]; exact hd
  · rw [if_neg hc]
    constructor
    · intro kv hkv
      rcases List.mem_append.mp hkv with hmem | hmem
      · exact hd.1 kv hmem
      · rw [List.mem_singleton.mp hmem]
        exact hk
    · have hnotin : k ∉ dictKeys d :=
        (dictContains_eq_false_iff d k).mp (Bool.eq_false_iff.mpr hc)
      unfold dictKeys
      rw [List.map_append]
      simp only [List.nodup_append]
      refine ⟨hd.2, by simp, ?_⟩
      intro x hx hmem
      rw [List.mem_singleton.mp hmem] at hx
      exact hnotin hx

/-- Each processed key is a `GoodKey`, provided the original key does not
strip down to the empty string. -/
theorem processHeaderKey_good {k : String} (hk : pyStrip k ≠ "") :
    GoodKey (processHeaderKey k) := by
  refine ⟨?_, processHeaderKey_idem k⟩
  unfold processHeaderKey
  by_cases hc : pyLower (pyStrip k) = "content_type" ∨ pyLower (pyStrip k) = "content-type"
  · rw [if_pos hc]
    decide
  · rw [if_neg hc]
    exact hk

/-- The normalization loop body preserves the dict invariant. -/
theorem normalizeStep_good {acc : List (String × String)} {kv : String × String}
    (hacc : GoodDict acc) (hkv : kv.1 ≠ "" → pyStrip kv.1 ≠ "") :
    GoodDict (normalizeStep acc kv) := by
  unfold normalizeStep
  by_cases he : kv.1 = ""
  · rw [if_pos he]; exact hacc
  · rw [if_neg he]
    exact dictInsert_good hacc (processHeaderKey_good (hkv he))

/-- The whole normalization fold preserves the dict invariant. -/
theorem foldl_normalizeStep_good {h : List (String × String)} :
    ∀ {acc : List (String × String)}, GoodDict acc →
    (∀ kv ∈ h, kv.1 ≠ "" → pyStrip kv.1 ≠ "") →
    GoodDict (h.foldl normalizeStep acc) := by
  induction h with
  | nil => intro acc hacc _; exact hacc
  | cons kv tl ih =>
    intro acc hacc hh
    rw [List.foldl_cons]
    exact ih (normalizeStep_good hacc (hh kv (List.mem_cons_self kv tl)))
      (fun p hp => hh p (List.mem_cons_of_mem kv hp))

/-- The empty dict satisfies the invariant. -/
theorem goodDict_nil : GoodDict [] := ⟨by simp, by simp [dictKeys]⟩

/-- `Content-Type` is a valid normalized key. -/
theorem goodKey_content_type : GoodKey "Content-Type" := by
  constructor
  · decide
  · have h1 : pyLower (pyStrip "Content-Type") = "content-type" := by decide
    rw [processHeaderKey, if_pos (Or.inr h1)]

/-- For every input, the output of `_normalize_headers` contains the key
`Content-Type`. -/
theorem normalizeHeaders_contains_ct (h : List (String × String)) :
    dictContains (normalizeHeaders h) "Content-Type" = true := by
  unfold normalizeHeaders dictSetDefault
  by_cases hc : dictContains (h.foldl normalizeStep []) "Content-Type"
  · rw [if_pos hc]; exact hc
  · rw [if_neg hc]
    simp [dictContains]

/-- Presence in the modelled dict is membership in its key list. -/
theorem dictContains_eq_true_iff (d : List (String × String)) (k : String) :
    dictContains d k = true ↔ k ∈ dictKeys d := by
  unfold dictContains dictKeys
  rw [List.any_eq_true]
  constructor
  · rintro ⟨p, hp, hpk⟩
    exact List.mem_map.mpr ⟨p, hp, eq_of_beq hpk⟩
  · intro hmem
    rcases List.mem_map.mp hmem with ⟨p, hp, hpk⟩
    exact ⟨p, hp, beq_iff_eq.mpr hpk⟩

/-- Inserting with key `k` either leaves the key list unchanged (overwrite)
or appends `k` to it. -/
theorem dictKeys_dictInsert (d : List (String × String)) (k v : String) :
    dictKeys (dictInsert d k v) =
      if dictContains d k then dictKeys d else dictKeys d ++ [k] := by
  unfold dictInsert
  by_cases hc : dictContains d k
  · rw [if_pos hc, if_pos hc]
    unfold dictKeys
    rw [List.map_map]
    apply List.map_congr_left
    intro p _
    by_cases hpk : p.1 == k
    · simp only [Function.comp_apply, if_pos hpk]
      exact (eq_of_beq hpk).symm
    · simp only [Function.comp_apply, if_neg hpk]
  · rw [if_neg hc, if_neg hc]
    unfold dictKeys
    rw [List.map_append]
    rfl

/-- Refolding an already-normalized list of entries reproduces it: every
entry has a non-empty fixed-point key, the keys are pairwise distinct, and
none of them is already present in the accumulator. -/
theorem foldl_normalizeStep_replay (g : List (String × String)) :
    ∀ acc : List (String × String),
    (∀ kv ∈ g, kv.1 ≠ "" ∧ processHeaderKey kv.1 = kv.1) →
    (dictKeys g).Nodup →
    (∀ k ∈ dictKeys g, dictContains acc k = false) →
    g.foldl normalizeStep acc = acc ++ g := by
  induction g with
  | nil => intro acc _ _ _; simp
  | cons kv tl ih =>
    intro acc hg hnd hdisj
    have hkv := hg kv (List.mem_cons_self kv tl)
    have hhead : kv.1 ∈ dictKeys (kv :: tl) := by
      unfold dictKeys
      exact List.mem_map.mpr ⟨kv, List.mem_cons_self kv tl, rfl⟩
    have hstep : normalizeStep acc kv = acc ++ [kv] := by
      unfold normalizeStep
      rw [if_neg hkv.1, hkv.2]
      unfold dictInsert
      rw [if_neg (Bool.eq_false_iff.mp (hdisj kv.1 hhead) ·), Prod.mk.eta]
    rw [List.foldl_cons, hstep]
    have hkeys_cons : dictKeys (kv :: tl) = kv.1 :: dictKeys tl := rfl
    have hnd' : (dictKeys tl).Nodup := by
      rw [hkeys_cons] at hnd
      exact hnd.of_cons
    have hhead_notin : kv.1 ∉ dictKeys tl := by
      rw [hkeys_cons] at hnd
      exact (List.nodup_cons.mp hnd).1
    have hdisj' : ∀ k ∈ dictKeys tl, dictContains (acc ++ [kv]) k = false := by
      intro k hk
      unfold dictContains
      rw [List.any_append]
      have h1 : dictContains acc k = false := by
        apply hdisj
        rw [hkeys_cons]
        exact List.mem_cons_of_mem kv.1 hk
      have h2 : (kv.1 == k) = false := by
        rw [beq_eq_false_iff_ne]
        intro heq
        exact hhead_notin (heq ▸ hk)
      unfold dictContains at h1
      rw [h1]
      simp [h2]
    rw [ih (acc ++ [kv]) (fun p hp => hg p (List.mem_cons_of_mem kv hp)) hnd' hdisj',
      List.append_assoc]
    rfl

/-- Renormalizing the output of `_normalize_headers` returns it unchanged,
provided no input key consists purely of whitespace. -/
theorem normalizeHeaders_idem (h : List (String × String))
    (hh : ∀ kv ∈ h, kv.1 ≠ "" → pyStrip kv.1 ≠ "") :
    normalizeHeaders (normalizeHeaders h) = normalizeHeaders h := by
  have hg : GoodDict (normalizeHeaders h) :=
    dictSetDefault_good (foldl_normalizeStep_good goodDict_nil hh) goodKey_content_type
  have hct := normalizeHeaders_contains_ct h
  set g := normalizeHeaders h with hgdef
  show dictSetDefault (g.foldl normalizeStep []) "Content-Type" "application/json;charset=UTF-8" = g
  rw [foldl_normalizeStep_replay g [] (fun kv hkv => hg.1 kv hkv) hg.2 (fun k _ => rfl),
    List.nil_append]
  unfold dictSetDefault
  rw [if_pos hct]

/-- The fold never materializes a `Content-Type` key when no input entry
rewrites to one. -/
theorem foldl_normalizeStep_no_ct (h : List (String × String)) :
    ∀ acc : List (String × String), dictContains acc "Content-Type" = false →
    (∀ kv ∈ h, kv.1 ≠ "" → processHeaderKey kv.1 ≠ "Content-Type") →
    dictContains (h.foldl normalizeStep acc) "Content-Type" = false := by
  induction h with
  | nil => intro acc hacc _; exact hacc
  | cons kv tl ih =>
    intro acc hacc hh
    rw [List.foldl_cons]
    apply ih
    · unfold normalizeStep
      by_cases he : kv.1 = ""
      · rw [if_pos he]; exact hacc
      · rw [if_neg he]
        rw [dictContains_eq_false_iff, dictKeys_dictInsert]
        by_cases hc : dictContains acc (processHeaderKey kv.1)
        · rw [if_pos hc]
          exact (dictContains_eq_false_iff acc "Content-Type").mp hacc
        · rw [if_neg hc]
          intro hmem
          rcases List.mem_append.mp hmem with hmem | hmem
          · exact (dictContains_eq_false_iff acc "Content-Type").mp hacc hmem
          · exact hh kv (List.mem_cons_self kv tl) he (List.mem_singleton.mp hmem).symm
    · exact fun p hp => hh p (List.mem_cons_of_mem kv hp)

/-- Looking up a key just appended to a dict that did not contain it. -/
theorem dictGet_append_absent (d : List (String × String)) (k v : String)
    (hc : dictContains d k = false) : dictGet (d ++ [(k, v)]) k = some v := by
  unfold dictGet
  have hnone : d.find? (fun p => p.1 == k) = none := by
    rw [List.find?_eq_none]
    intro p hp hbeq
    have := (dictContains_eq_false_iff d k).mp hc
    exact this (List.mem_map.mpr ⟨p, hp, eq_of_beq hbeq⟩)
  rw [List.find?_append, hnone]
  simp

/-- C10 (amended): header normalization always yields a dict containing the
key `Content-Type`; any non-empty key whose stripped, lowercased form is
`content_type` or `content-type` is rewritten to exactly `Content-Type`;
`Content-Type` defaults to `application/json;charset=UTF-8` when no entry
produces that key; and normalization is idempotent provided no input key is
non-empty but consists purely of whitespace (such a key is kept as the
empty-string key on the first pass and dropped on the second). -/
theorem c10_normalize_headers (h : List (String × String))
    (hh : ∀ kv ∈ h, kv.1 ≠ "" → pyStrip kv.1 ≠ "") :
    normalizeHeaders (normalizeHeaders h) = normalizeHeaders h ∧
    dictContains (normalizeHeaders h) "Content-Type" = true ∧
    (∀ kv ∈ normalizeHeaders h,
      (pyLower (pyStrip kv.1) = "content_type" ∨ pyLower (pyStrip kv.1) = "content-type") →
      kv.1 = "Content-Type") ∧
    ((∀ kv ∈ h, kv.1 ≠ "" → processHeaderKey kv.1 ≠ "Content-Type") →
      dictGet (normalizeHeaders h) "Content-Type" = some "application/json;charset=UTF-8") := by
  have hg : GoodDict (normalizeHeaders h) :=
    dictSetDefault_good (foldl_normalizeStep_good goodDict_nil hh) goodKey_content_type
  refine ⟨normalizeHeaders_idem h hh, normalizeHeaders_contains_ct h, ?_, ?_⟩
  · intro kv hkv hcond
    have hfix := (hg.1 kv hkv).2
    rw [processHeaderKey, if_pos hcond] at hfix
    exact hfix.symm
  · intro habsent
    have hnoct := foldl_normalizeStep_no_ct h [] rfl habsent
    unfold normalizeHeaders dictSetDefault
    rw [if_neg (Bool.eq_false_iff.mp hnoct ·)]
    exact dictGet_append_absent _ _ _ hnoct

/-- C10 witness: the amended theorem applied to the concrete header dict
`{"content_type": "x", " Accept ": "y"}`. -/
theorem c10_normalize_headers_witness :
    (∀ kv ∈ [("content_type", "x"), (" Accept ", "y")],
      kv.1 ≠ "" → pyStrip kv.1 ≠ "") ∧
    (normalizeHeaders (normalizeHeaders [("content_type", "x"), (" Accept ", "y")]) =
      normalizeHeaders [("content_type", "x"), (" Accept ", "y")] ∧
    dictContains (normalizeHeaders [("content_type", "x"), (" Accept ", "y")])
      "Content-Type" = true ∧
    (∀ kv ∈ normalizeHeaders [("content_type", "x"), (" Accept ", "y")],
      (pyLower (pyStrip kv.1) = "content_type" ∨ pyLower (pyStrip kv.1) = "content-type") →
      kv.1 = "Content-Type") ∧
    ((∀ kv ∈ [("content_type", "x"), (" Accept ", "y")],
        kv.1 ≠ "" → processHeaderKey kv.1 ≠ "Content-Type") →
      dictGet (normalizeHeaders [("content_type", "x"), (" Accept ", "y")])
        "Content-Type" = some "application/json;charset=UTF-8")) :=
  ⟨by decide, c10_normalize_headers [("content_type", "x"), (" Accept ", "y")] (by decide)⟩

/-- C10 counterexample: normalization is not idempotent as claimed.  For the
header dict `{" ": "x"}` the first normalization keeps the entry under the
empty-string key, while normalizing the result drops it, so the second pass
does not return its input unchanged. -/
theorem c10_counterexample :
    normalizeHeaders (normalizeHeaders [(" ", "x")]) ≠ normalizeHeaders [(" ", "x")] := by
  decide

/-- A value read from the `kiwoom` configuration table: a flat string, a
nested table of strings, or absent. -/
inductive ConfigVal where
  | cstr (s : String)
  | cdict (entries : List (String × String))
  | cnone
  deriving Repr, DecidableEq

/-- The two fields of the kiwoom config consulted by
`KiwoomRESTClient._resolve_base_url`. -/
structure KiwoomHostsConfig where
  base_url : ConfigVal
  hosts : ConfigVal
  deriving Repr, DecidableEq

/-- Inner helper `pick` of `_resolve_base_url` (kiwoom_client.py lines
138-143): for a table, the environment key's entry, else `paper`, else
`live` (Python `or` semantics, so empty strings are falsy); for a flat
string, the string itself; otherwise `None`. -/
def pickHost (envKey : String) (v : ConfigVal) : Option String :=
  match v with
  | .cdict entries =>
      pyOrS (dictGet entries envKey) (pyOrS (dictGet entries "paper") (dictGet entries "live"))
  | .cstr s => some s
  | .cnone => none

/-- First truthy element of the candidate list (the `for url in candidates`
loop of `_resolve_base_url`, lines 153-155). -/
def firstTruthy : List (Option String) → Option String
  | [] => none
  | c :: rest => if truthyS c then c else firstTruthy rest

/-- Shared tail of `_resolve_base_url`: return the first truthy candidate,
else the hard-coded per-environment default (line 158). -/
def resolveFrom (candidates : List (Option String)) (is_live : Bool) : String :=
  match firstTruthy candidates with
  | some url => url
  | none => if is_live then "https://api.kiwoom.com" else "https://mockapi.kiwoom.com"

/-- Embedding of `KiwoomRESTClient._resolve_base_url` (kiwoom_client.py
lines 133-158): candidates are `pick(base_url)`, `pick(hosts)`, and the raw
`base_url` again when it is a flat string. -/
def resolveBaseUrl (cfg : KiwoomHostsConfig) (is_live : Bool) : String :=
  let envKey := if is_live then "live" else "paper"
  resolveFrom
    ([pickHost envKey cfg.base_url, pickHost envKey cfg.hosts] ++
      (match cfg.base_url with | .cstr s => [some s] | _ => []))
    is_live

/-- Base-URL resolution as claim C6 states it: the hosts table is consulted
first, the flat `base_url` string second, the default third. -/
def resolveBaseUrlPerClaim (cfg : KiwoomHostsConfig) (is_live : Bool) : String :=
  let envKey := if is_live then "live" else "paper"
  resolveFrom
    ([pickHost envKey cfg.hosts] ++
      (match cfg.base_url with | .cstr s => [some s] | _ => []))
    is_live

/-- Base-URL resolution as amended: the `base_url` field is consulted first
(as a per-environment table or a flat string), the `hosts` table second,
and the hard-coded per-environment default third. -/
def resolveBaseUrlAmended (cfg : KiwoomHostsConfig) (is_live : Bool) : String :=
  let envKey := if is_live then "live" else "paper"
  resolveFrom [pickHost envKey cfg.base_url, pickHost envKey cfg.hosts] is_live

/-- C6 counterexample: with a flat `base_url` string and a `hosts` table
both configured, the code resolves to the flat `base_url`, not to the hosts
entry the claim's priority order predicts. -/
theorem c6_counterexample :
    resolveBaseUrl
        ⟨.cstr "https://flat.x", .cdict [("paper", "https://mock.x")]⟩ false =
      "https://flat.x" ∧
    resolveBaseUrlPerClaim
        ⟨.cstr "https://flat.x", .cdict [("paper", "https://mock.x")]⟩ false =
      "https://mock.x" ∧
    ("https://flat.x" : String) ≠ "https://mock.x" := by
  refine ⟨by decide, by decide, by decide⟩

/-- C6 (amended): base-URL resolution returns the first non-empty candidate
in the order: (1) the `base_url` entry, read as a per-environment table
(current environment, then `paper`, then `live`) or as a flat string;
(2) the `hosts` table read the same way; (3) the hard-coded default for the
environment.  The claim's paper-trading scenario resolves to the mock host. -/
theorem c6_resolve_base_url :
    (∀ (cfg : KiwoomHostsConfig) (is_live : Bool),
      resolveBaseUrl cfg is_live = resolveBaseUrlAmended cfg is_live) ∧
    resolveBaseUrl
        ⟨.cnone, .cdict [("live", "https://api.x"), ("paper", "https://mock.x")]⟩ false =
      "https://mock.x" := by
  constructor
  · intro cfg is_live
    obtain ⟨bu, ho⟩ := cfg
    cases bu with
    | cstr s =>
      by_cases hs : s = ""
      · subst hs
        unfold resolveBaseUrl resolveBaseUrlAmended resolveFrom firstTruthy
        simp only [pickHost]
        by_cases hh : truthyS (pickHost (if is_live then "live" else "paper") ho)
        · simp [truthyS, hh, firstTruthy]
        · simp [truthyS, hh, firstTruthy]
      · unfold resolveBaseUrl resolveBaseUrlAmended resolveFrom firstTruthy
        simp [pickHost, truthyS, hs]
    | cdict entries =>
      unfold resolveBaseUrl resolveBaseUrlAmended
      simp
    | cnone =>
      unfold resolveBaseUrl resolveBaseUrlAmended
      simp
  · decide

/-- JSON type of the `expires_in` field of an authentication response as
`_resolve_expiry` distinguishes it: a number (floats are truncated by
`int()`, so modelled as an integer), a string, or absent — where "absent"
also stands for JSON values that are neither numbers nor strings, which the
code treats identically. -/
inductive ExpiresInField where
  | absent
  | num (n : Int)
  | str (s : String)
  deriving Repr, DecidableEq

/-- Gregorian leap-year rule. -/
def isLeapYear (y : Nat) : Bool := (y % 4 = 0 && y % 100 ≠ 0) || y % 400 = 0

/-- Days in month `m` of year `y` (1-based months). -/
def daysInMonth (y m : Nat) : Nat :=
  if m = 2 then (if isLeapYear y then 29 else 28)
  else if m = 4 ∨ m = 6 ∨ m = 9 ∨ m = 11 then 30
  else 31

/-- Days between 1970-01-01 and the civil date `y-m-d` (proleptic Gregorian;
the standard days-from-civil computation). -/
def daysFromCivil (y : Int) (m d : Nat) : Int :=
  let yAdj := if m ≤ 2 then y - 1 else y
  let era := (if 0 ≤ yAdj then yAdj else yAdj - 399) / 400
  let yoe := yAdj - era * 400
  let mp : Int := if 2 < m then (m : Int) - 3 else (m : Int) + 9
  let doy := (153 * mp + 2) / 5 + (d : Int) - 1
  let doe := yoe * 365 + yoe / 4 - yoe / 100 + doy
  era * 146097 + doe - 719468

/-- Numeric value of a list of ASCII digit characters. -/
def digitsToNat (l : List Char) : Nat :=
  l.foldl (fun acc c => acc * 10 + (c.toNat - 48)) 0

/-- Parse a Kiwoom `YYYYMMDDHHMMSS` timestamp into UTC epoch seconds.
Mirrors `datetime.strptime(s, "%Y%m%d%H%M%S").replace(tzinfo=timezone.utc)`
on canonical 14-digit inputs: field ranges are validated and only real
calendar dates (year at least 1) are accepted. -/
def parseCompactUTC (s : String) : Option Int :=
  let l := s.data
  if l.length = 14 ∧ l.all Char.isDigit then
    let y := digitsToNat (l.take 4)
    let mo := digitsToNat ((l.drop 4).take 2)
    let d := digitsToNat ((l.drop 6).take 2)
    let hh := digitsToNat ((l.drop 8).take 2)
    let mi := digitsToNat ((l.drop 10).take 2)
    let ss := digitsToNat ((l.drop 12).take 2)
    if 1 ≤ y ∧ 1 ≤ mo ∧ mo ≤ 12 ∧ 1 ≤ d ∧ d ≤ daysInMonth y mo ∧
        hh ≤ 23 ∧ mi ≤ 59 ∧ ss ≤ 59 then
      some (daysFromCivil (y : Int) mo d * 86400 + (hh : Int) * 3600 + (mi : Int) * 60 + (ss : Int))
    else none
  else none

/-- The `expires_dt` half of `_resolve_expiry` (kiwoom_client.py lines
415-424): a truthy `expires_dt` that parses yields the seconds until that
instant floored at 0; anything else yields 3600. -/
def resolveExpiryFallback (expires_dt : Option String) (now : Int) : Int :=
  match expires_dt with
  | some s =>
      if s = "" then 3600
      else
        match parseCompactUTC s with
        | some t => max (t - now) 0
        | none => 3600
  | none => 3600

/-- Embedding of `KiwoomRESTClient._resolve_expiry` (kiwoom_client.py lines
406-424), with `now` the current UTC time in epoch seconds: a numeric
`expires_in` is returned directly, a digit string is converted, and
everything else falls back to the `expires_dt` logic. -/
def resolveExpiry (expires_in : ExpiresInField) (expires_dt : Option String) (now : Int) : Int :=
  match expires_in with
  | .num n => n
  | .str s =>
      if s ≠ "" ∧ s.data.all Char.isDigit then (digitsToNat s.data : Int)
      else resolveExpiryFallback expires_dt now
  | .absent => resolveExpiryFallback expires_dt now

/-- Domain on which the Lean embedding of `strptime` is faithful: the
`expires_dt` string is absent, empty, contains a non-digit (Python rejects
it), or is all digits with a length Python's lenient field matching cannot
misparse (at most 8, exactly 14, or at least 15 characters). -/
def expiresDtRepresentable : Option String → Prop
  | none => True
  | some s => s = "" ∨ (∃ c ∈ s.data, ¬c.isDigit) ∨
      (s.data.all Char.isDigit ∧
        (s.data.length ≤ 8 ∨ s.data.length = 14 ∨ 15 ≤ s.data.length))

/-- C8: token-expiry seconds are the numeric `expires_in` when present (as
a number or digit string); otherwise, when `expires_dt` parses as a
`YYYYMMDDHHMMSS` UTC timestamp, the seconds from now to that instant
floored at 0; otherwise 3600.  A body whose `expires_dt` is 10 minutes in
the future yields exactly 600 at second granularity. -/
theorem c8_resolve_expiry (ein : ExpiresInField) (edt : Option String) (now : Int)
    (hdt : expiresDtRepresentable edt) :
    (∀ n : Int, ein = .num n → resolveExpiry ein edt now = n) ∧
    (∀ s : String, ein = .str s → s ≠ "" → s.data.all Char.isDigit →
      resolveExpiry ein edt now = (digitsToNat s.data : Int)) ∧
    ((ein = .absent ∨ ∃ s, ein = .str s ∧ (s = "" ∨ ¬s.data.all Char.isDigit)) →
      (∀ s t, edt = some s → parseCompactUTC s = some t →
        resolveExpiry ein edt now = max (t - now) 0) ∧
      ((edt = none ∨ ∃ s, edt = some s ∧ parseCompactUTC s = none) →
        resolveExpiry ein edt now = 3600)) ∧
    resolveExpiry .absent (some "20240101001000") 1704067200 = 600 := by
  refine ⟨?_, ?_, ?_, by decide⟩
  · intro n hn
    rw [hn]
    rfl
  · intro s hs hne hdig
    rw [hs]
    simp only [resolveExpiry]
    rw [if_pos ⟨hne, hdig⟩]
  · intro hfall
    have hfb : resolveExpiry ein edt now = resolveExpiryFallback edt now := by
      rcases hfall with h | ⟨s, hs, hbad⟩
      · rw [h]
        rfl
      · rw [hs]
        simp only [resolveExpiry]
        rw [if_neg]
        rintro ⟨hne, hdig⟩
        rcases hbad with h | h
        · exact hne h
        · exact h hdig
    constructor
    · intro s t hedt hparse
      rw [hfb, hedt]
      simp only [resolveExpiryFallback]
      have hne : s ≠ "" := by
        intro h
        rw [h] at hparse
        have hnone : parseCompactUTC "" = none := by decide
        rw [hnone] at hparse
        exact Option.noConfusion hparse
      rw [if_neg hne, hparse]
    · rintro (h | ⟨s, hs, hparse⟩)
      · rw [hfb, h]
        rfl
      · rw [hfb, hs]
        simp only [resolveExpiryFallback]
        by_cases hne : s = ""
        · rw [if_pos hne]
        · rw [if_neg hne, hparse]

/-- C8 witness: the theorem applied to the concrete scenario body
`{"expires_dt": "20240101001000"}` at now = 2024-01-01T00:00:00Z. -/
theorem c8_resolve_expiry_witness :
    expiresDtRepresentable (some "20240101001000") ∧
    resolveExpiry .absent (some "20240101001000") 1704067200 = 600 :=
  ⟨by right; right; exact ⟨by decide, Or.inr (Or.inl (by decide))⟩,
    (c8_resolve_expiry .absent (some "20240101001000") 1704067200
      (by right; right; exact ⟨by decide, Or.inr (Or.inl (by decide))⟩)).2.2.2⟩

/-- Mutable state of `KiwoomRESTClient` that the verified operations touch:
the cached token and expiry (epoch seconds) and the credential fields held
on `settings.credentials`. -/
structure ClientState where
  accessToken : Option String
  tokenExpiry : Option Int
  appSky : String
  secKey : String
  accountNo : String
  deriving Repr, DecidableEq

/-- Embedding of `KiwoomRESTClient.update_credentials` (kiwoom_client.py
lines 54-61): store the stripped credentials and unconditionally clear the
cached token and expiry. -/
def updateCredentials (st : ClientState) (app_sky sec_key account_no : String) : ClientState :=
  { st with
    appSky := pyStrip app_sky
    secKey := pyStrip sec_key
    accountNo := pyStrip account_no
    accessToken := none
    tokenExpiry := none }

/-- Fields of the authentication response body that `authenticate` reads.
`return_code` and `return_msg` only select the text of the raised
`AuthenticationError`, so they are not modelled separately: a 2xx body
without a truthy token always fails with `AuthenticationError`. -/
structure AuthBody where
  access_token : Option String
  token : Option String
  expires_in : ExpiresInField
  expires_dt : Option String
  deriving Repr, DecidableEq

/-- Outcome of the authentication POST: a transport-level
`requests.RequestException` (which `raise_for_status` also throws for
non-2xx responses) or a parsed 2xx JSON body. -/
inductive AuthNet where
  | netFail
  | netBody (body : AuthBody)
  deriving Repr, DecidableEq

/-- Result of one `authenticate` call: the returned token or raised error,
the client state afterwards, the number of network authentication requests
issued, and whether the cached-token fast path was taken. -/
structure AuthResult where
  result : Except MLStockError String
  state : ClientState
  networkCalls : Nat
  fromCache : Bool
  deriving Repr

/-- The cache-hit condition of `authenticate` (kiwoom_client.py lines
65-70): a truthy cached token, a cached expiry more than 60 seconds past
`now`, and `force=False`. -/
def authCacheHit (st : ClientState) (now : Int) (force : Bool) : Bool :=
  truthyS st.accessToken &&
    (match st.tokenExpiry with
     | some e => decide (now + 60 < e)
     | none => false) && !force

/-- Token-extraction half of the `authenticate` network path
(kiwoom_client.py lines 100-115): `access_token or token` must be truthy,
otherwise `AuthenticationError`; on success the token is cached together
with its computed expiry. -/
def authTokenStep (st : ClientState) (now : Int) (body : AuthBody) :
    Option String → AuthResult
  | some tok =>
      if tok = "" then
        { result := .error .authenticationError, state := st,
          networkCalls := 1, fromCache := false }
      else
        { result := .ok tok,
          state := { st with
            accessToken := some tok,
            tokenExpiry := some (now + resolveExpiry body.expires_in body.expires_dt now) },
          networkCalls := 1, fromCache := false }
  | none =>
      { result := .error .authenticationError, state := st,
        networkCalls := 1, fromCache := false }

/-- The token read from the body is `access_token or token` with Python
truthiness (line 100). -/
def authBodyStep (st : ClientState) (now : Int) (body : AuthBody) : AuthResult :=
  authTokenStep st now body (pyOrS body.access_token body.token)

/-- The network half of `authenticate` (kiwoom_client.py lines 87-115): the
POST either raises a transport error (`AuthenticationError`) or yields a
body handled by `authBodyStep`; one network call is made either way. -/
def authNetStep (st : ClientState) (now : Int) (net : AuthNet) : AuthResult :=
  match net with
  | .netFail =>
      { result := .error .authenticationError, state := st, networkCalls := 1, fromCache := false }
  | .netBody body => authBodyStep st now body

/-- Embedding of `KiwoomRESTClient.authenticate` (kiwoom_client.py lines
63-115), assembled from the pieces above.  `authEndpoint` is
`endpoints.get("authenticate")`, `now` the current UTC time in epoch
seconds and `net` the answer the network would give.  On a cache hit the
cached token is returned with no network call; otherwise missing
credentials or a missing endpoint raise `ConfigurationError` before any
request; otherwise one POST is issued and its body validated and cached. -/
def authenticate (st : ClientState) (authEndpoint : Option String) (now : Int)
    (force : Bool) (net : AuthNet) : AuthResult :=
  if authCacheHit st now force then
    { result := .ok (st.accessToken.getD ""), state := st, networkCalls := 0, fromCache := true }
  else if st.appSky = "" ∨ st.secKey = "" then
    { result := .error .configurationError, state := st, networkCalls := 0, fromCache := false }
  else if ¬ truthyS authEndpoint then
    { result := .error .configurationError, state := st, networkCalls := 0, fromCache := false }
  else
    authNetStep st now net

/-- Every outcome of the network step reports exactly one network call and
no cache hit. -/
theorem authNetStep_spec (st : ClientState) (now : Int) (net : AuthNet) :
    (authNetStep st now net).networkCalls = 1 ∧ (authNetStep st now net).fromCache = false := by
  cases net with
  | netFail => exact ⟨rfl, rfl⟩
  | netBody body =>
    simp only [authNetStep, authBodyStep]
    cases pyOrS body.access_token body.token with
    | none => exact ⟨rfl, rfl⟩
    | some tok =>
      simp only [authTokenStep]
      split
      · exact ⟨rfl, rfl⟩
      · exact ⟨rfl, rfl⟩

/-- The `fromCache` flag of `authenticate` is exactly the cache-hit
condition: every non-cache branch reports `false`. -/
theorem authenticate_fromCache (st : ClientState) (ep : Option String) (now : Int)
    (force : Bool) (net : AuthNet) :
    (authenticate st ep now force net).fromCache = authCacheHit st now force := by
  unfold authenticate
  by_cases h : authCacheHit st now force = true
  · rw [if_pos h, h]
  · rw [if_neg h, Bool.eq_false_iff.mpr h]
    split
    · rfl
    · split
      · rfl
      · exact (authNetStep_spec st now net).2

/-- C1 counterexample: in the client state with no cached token and empty
credentials, `authenticate(force=False)` raises `ConfigurationError` and
issues zero network requests, contradicting the claim that a network
authentication call is always performed when the token is absent. -/
theorem c1_counterexample :
    (authenticate ⟨none, none, "", "", ""⟩ (some "/oauth2/token") 0 false
        (.netBody ⟨some "tok", none, .absent, none⟩)).networkCalls = 0 ∧
    (authenticate ⟨none, none, "", "", ""⟩ (some "/oauth2/token") 0 false
        (.netBody ⟨some "tok", none, .absent, none⟩)).result = .error .configurationError :=
  ⟨rfl, rfl⟩

/-- C1 (amended): when a truthy cached token is present whose expiry is
more than 60 seconds after `now`, `authenticate(force=False)` returns the
cached token, issues no network request and leaves the state unchanged;
when the token is absent or its expiry is at most 60 seconds away, it
performs exactly one network authentication call provided the credentials
and the authenticate endpoint are configured (with missing credentials or
endpoint it raises `ConfigurationError` before any request). -/
theorem c1_authenticate (st : ClientState) (ep : Option String) (now : Int) (net : AuthNet) :
    (∀ tok e, st.accessToken = some tok → tok ≠ "" → st.tokenExpiry = some e →
      now + 60 < e →
      authenticate st ep now false net =
        { result := .ok tok, state := st, networkCalls := 0, fromCache := true }) ∧
    ((truthyS st.accessToken = false ∨ st.tokenExpiry = none ∨
        (∃ e, st.tokenExpiry = some e ∧ e ≤ now + 60)) →
      st.appSky ≠ "" → st.secKey ≠ "" → truthyS ep →
      (authenticate st ep now false net).networkCalls = 1) := by
  constructor
  · intro tok e htok hne hexp hlt
    have hhit : authCacheHit st now false = true := by
      unfold authCacheHit
      rw [htok, hexp]
      simp [truthyS, hne, hlt]
    unfold authenticate
    rw [if_pos hhit, htok]
    rfl
  · intro hmiss ha hs hep
    have hhit : authCacheHit st now false = false := by
      unfold authCacheHit
      rcases hmiss with h | h | ⟨e, he, hle⟩
      · rw [h]; rfl
      · rw [h]; simp
      · rw [he]
        have : ¬(now + 60 < e) := Int.not_lt.mpr hle
        simp [this]
    unfold authenticate
    rw [if_neg (by simp [hhit])]
    rw [if_neg (by rintro (h | h); exacts [ha h, hs h])]
    rw [if_neg (not_not_intro hep)]
    exact (authNetStep_spec st now net).1

/-- C1 witness: the amended theorem applied to a cached-token state (cache
hit, no network call) and to a token-free state with valid credentials
(exactly one network call). -/
theorem c1_authenticate_witness :
    authenticate ⟨some "tok", some 1000, "app", "sec", "12345678"⟩ (some "/oauth2/token") 0 false
        (.netBody ⟨some "t2", none, .absent, none⟩) =
      { result := .ok "tok",
        state := ⟨some "tok", some 1000, "app", "sec", "12345678"⟩,
        networkCalls := 0, fromCache := true } ∧
    (authenticate ⟨none, none, "app", "sec", "12345678"⟩ (some "/oauth2/token") 0 false
        (.netBody ⟨some "t2", none, .absent, none⟩)).networkCalls = 1 :=
  ⟨(c1_authenticate ⟨some "tok", some 1000, "app", "sec", "12345678"⟩
      (some "/oauth2/token") 0 (.netBody ⟨some "t2", none, .absent, none⟩)).1
      "tok" 1000 rfl (by decide) rfl (by decide),
    (c1_authenticate ⟨none, none, "app", "sec", "12345678"⟩
      (some "/oauth2/token") 0 (.netBody ⟨some "t2", none, .absent, none⟩)).2
      (Or.inl rfl) (by decide) (by decide) (by decide)⟩

/-- C9: `update_credentials` stores the stripped new credentials and
unconditionally clears the cached token and expiry, so a subsequent
`authenticate` call never takes the cached-token path and any token it
returns comes from the new network response, never from the previous
credentials' cache. -/
theorem c9_update_credentials (st : ClientState) (a s acc : String) (ep : Option String)
    (now : Int) (force : Bool) (net : AuthNet) :
    (updateCredentials st a s acc).appSky = pyStrip a ∧
    (updateCredentials st a s acc).secKey = pyStrip s ∧
    (updateCredentials st a s acc).accountNo = pyStrip acc ∧
    (updateCredentials st a s acc).accessToken = none ∧
    (updateCredentials st a s acc).tokenExpiry = none ∧
    (authenticate (updateCredentials st a s acc) ep now force net).fromCache = false ∧
    (∀ tok, (authenticate (updateCredentials st a s acc) ep now force net).result = .ok tok →
      ∃ body, net = .netBody body ∧ pyOrS body.access_token body.token = some tok) := by
  have hhit : authCacheHit (updateCredentials st a s acc) now force = false := by
    unfold authCacheHit updateCredentials
    simp [truthyS]
  refine ⟨rfl, rfl, rfl, rfl, rfl, ?_, ?_⟩
  · rw [authenticate_fromCache, hhit]
  · intro tok hres
    unfold authenticate at hres
    rw [if_neg (by simp [hhit])] at hres
    by_cases h1 : (updateCredentials st a s acc).appSky = "" ∨
        (updateCredentials st a s acc).secKey = ""
    · rw [if_pos h1] at hres
      exact absurd hres (by simp)
    · rw [if_neg h1] at hres
      by_cases h2 : ¬ truthyS ep
      · rw [if_pos h2] at hres
        exact absurd hres (by simp)
      · rw [if_neg h2] at hres
        cases net with
        | netFail => exact absurd hres (by simp [authNetStep])
        | netBody body =>
          simp only [authNetStep, authBodyStep] at hres
          cases hpy : pyOrS body.access_token body.token with
          | none =>
            rw [hpy] at hres
            simp only [authTokenStep] at hres
            exact absurd hres (by simp)
          | some tok2 =>
            rw [hpy] at hres
            simp only [authTokenStep] at hres
            by_cases ht : tok2 = ""
            · rw [if_pos ht] at hres
              exact absurd hres (by simp)
            · rw [if_neg ht] at hres
              have htk : tok2 = tok := by simpa using hres
              exact ⟨body, rfl, by rw [hpy, htk]⟩

/-- C9 witness: the theorem applied to an authenticated client whose
credentials are replaced; the follow-up `authenticate` that succeeds
returns the token of the new network response. -/
theorem c9_update_credentials_witness :
    (updateCredentials ⟨some "old", some 99999, "oldapp", "oldsec", "1"⟩
        " newapp " "newsec" "12345678-01").appSky = pyStrip " newapp " ∧
    (authenticate
        (updateCredentials ⟨some "old", some 99999, "oldapp", "oldsec", "1"⟩
          " newapp " "newsec" "12345678-01")
        (some "/oauth2/token") 0 false
        (.netBody ⟨some "fresh", none, .absent, none⟩)).result = .ok "fresh" ∧
    (∃ body, (AuthNet.netBody ⟨some "fresh", none, .absent, none⟩) = .netBody body ∧
      pyOrS body.access_token body.token = some "fresh") :=
  ⟨(c9_update_credentials ⟨some "old", some 99999, "oldapp", "oldsec", "1"⟩
      " newapp " "newsec" "12345678-01" (some "/oauth2/token") 0 false
      (.netBody ⟨some "fresh", none, .absent, none⟩)).1,
   rfl,
   (c9_update_credentials ⟨some "old", some 99999, "oldapp", "oldsec", "1"⟩
      " newapp " "newsec" "12345678-01" (some "/oauth2/token") 0 false
      (.netBody ⟨some "fresh", none, .absent, none⟩)).2.2.2.2.2.2 "fresh" rfl⟩

/-- Exceptions the embedded request code can raise: the project's own error
kinds, or a Python `TypeError`.  The raises at kiwoom_client.py lines 231
and 236 call `KiwoomAPIError(message, status_code=..., payload=...)` /
`KiwoomAPIError(..., payload=...)` with keyword arguments, but the classes
in `src/core/exceptions.py` define no `__init__`, and `BaseException`
accepts no keyword arguments — so those raise statements themselves fail
with `TypeError`. -/
inductive PyError where
  | mlstock (e : MLStockError)
  | typeError
  deriving Repr, DecidableEq

/-- Result of one HTTP attempt as seen by `_request_with_headers`: a
transport error (`requests.RequestException`), or a response with a status
code, raw text, and an optional parsed JSON body (`none` models a body that
`response.json()` cannot parse). -/
inductive HttpAttempt where
  | netError
  | resp (status : Nat) (text : String) (json : Option String)
  deriving Repr, DecidableEq

/-- Observable outcome of a single attempt of `_request_with_headers`:
the value returned or exception raised, the number of `notifier.notify`
calls made, and the number of HTTP requests sent. -/
structure AttemptOutcome where
  result : Except PyError String
  notified : Nat
  httpCalls : Nat
  deriving Repr

/-- Status/body dispatch of `_request_with_headers` (kiwoom_client.py lines
207-236) for one attempt, given what the HTTP layer did.  429 raises
`RateLimitError`; a non-ok status (`response.ok` is `status < 400`) first
notifies, then the `KiwoomAPIError(..., status_code=..., payload=...)`
construction itself raises `TypeError`; an ok response returns its JSON
body, and a JSON parse failure hits the same keyword-argument `TypeError`. -/
def attemptDispatch : HttpAttempt → AttemptOutcome
  | .netError =>
      { result := .error (.mlstock (.kiwoomAPIError none none)), notified := 0, httpCalls := 1 }
  | .resp status text json =>
      if status = 429 then
        { result := .error (.mlstock .rateLimitError), notified := 0, httpCalls := 1 }
      else if 400 ≤ status then
        { result := .error .typeError, notified := 1, httpCalls := 1 }
      else
        match json with
        | some body => { result := .ok body, notified := 0, httpCalls := 1 }
        | none => { result := .error .typeError, notified := 0, httpCalls := 1 }

/-- One attempt of `_request_with_headers` (kiwoom_client.py lines
190-236): an empty endpoint raises `ConfigurationError` before any HTTP
request; otherwise the HTTP outcome is classified.  The authentication
header construction is assumed to have succeeded (the claims quantify over
requests that reach the HTTP layer). -/
def requestAttempt (endpoint : String) (att : HttpAttempt) : AttemptOutcome :=
  if endpoint = "" then
    { result := .error (.mlstock .configurationError), notified := 0, httpCalls := 0 }
  else attemptDispatch att

/-- Result of the whole retry-decorated call: the returned body, or the
`tenacity.RetryError` that wraps the last attempt's exception once all
attempts are exhausted (tenacity's default `reraise=False`). -/
inductive PipelineResult where
  | ok (body : String)
  | retryError (last : PyError)
  deriving Repr, DecidableEq

/-- Accumulated observables of the retry-decorated call. -/
structure PipelineOutcome where
  result : PipelineResult
  attempts : Nat
  notified : Nat
  httpCalls : Nat
  deriving Repr, DecidableEq

/-- The `@retry(stop=stop_after_attempt(3), wait=wait_exponential(...))`
decorator on `_request_with_headers` with tenacity's defaults: any raised
exception triggers a retry until 3 attempts have run, after which a
`RetryError` wrapping the last exception is raised.  `atts i` is what the
HTTP layer does on attempt `i`; the fuel argument counts remaining
attempts (the fuel-0 case is unreachable from `requestPipeline`). -/
def retryExec (endpoint : String) (atts : Nat → HttpAttempt) (i : Nat) :
    Nat → PipelineOutcome
  | 0 => { result := .retryError (.mlstock .configurationError),
           attempts := 0, notified := 0, httpCalls := 0 }
  | fuel + 1 =>
      let a := requestAttempt endpoint (atts i)
      match a.result with
      | .ok body =>
          { result := .ok body, attempts := 1, notified := a.notified, httpCalls := a.httpCalls }
      | .error e =>
          if fuel = 0 then
            { result := .retryError e, attempts := 1,
              notified := a.notified, httpCalls := a.httpCalls }
          else
            let rest := retryExec endpoint atts (i + 1) fuel
            { result := rest.result, attempts := rest.attempts + 1,
              notified := a.notified + rest.notified, httpCalls := a.httpCalls + rest.httpCalls }

/-- The full `_request_with_headers` pipeline: three attempts under the
retry decorator. -/
def requestPipeline (endpoint : String) (atts : Nat → HttpAttempt) : PipelineOutcome :=
  retryExec endpoint atts 0 3

/-- A failing attempt with a non-429 status of at least 400 notifies
exactly once and then fails with the keyword-argument `TypeError`. -/
theorem requestAttempt_notify (endpoint : String) (hep : endpoint ≠ "")
    (status : Nat) (text : String) (json : Option String)
    (h429 : status ≠ 429) (h400 : 400 ≤ status) :
    requestAttempt endpoint (.resp status text json) =
      { result := .error .typeError, notified := 1, httpCalls := 1 } := by
  unfold requestAttempt
  rw [if_neg hep]
  simp only [attemptDispatch]
  rw [if_neg h429, if_pos h400]

/-- C4: per attempt, a 429 response raises `RateLimitError` exactly as the
claim states; but a 500 response does not produce a `KiwoomAPIError`
carrying the status code and body text — the raise at kiwoom_client.py
line 231 passes `status_code`/`payload` as keyword arguments to an
exception class with no `__init__`, so the construction itself raises
`TypeError`, and after retry exhaustion the caller receives a `RetryError`
wrapping `TypeError`, not a `KiwoomAPIError`. -/
theorem c4_status_dispatch :
    (∀ text json, requestAttempt "/api/dostk/stkinfo" (.resp 429 text json) =
      { result := .error (.mlstock .rateLimitError), notified := 0, httpCalls := 1 }) ∧
    requestAttempt "/api/dostk/stkinfo" (.resp 500 "boom" none) =
      { result := .error .typeError, notified := 1, httpCalls := 1 } ∧
    (requestPipeline "/api/dostk/stkinfo" (fun _ => .resp 429 "" none)).result =
      .retryError (.mlstock .rateLimitError) ∧
    (requestPipeline "/api/dostk/stkinfo" (fun _ => .resp 500 "boom" none)).result =
      .retryError .typeError := by
  refine ⟨fun text json => ?_, rfl, rfl, rfl⟩
  unfold requestAttempt
  rw [if_neg (by decide)]
  simp only [attemptDispatch]
  simp

/-- C5 counterexample: a request whose three attempts all return status 500
is one terminal failure, yet the notifier fires on every attempt — three
notifications, not one, and the intermediate retried attempts are not
silent. -/
theorem c5_counterexample :
    requestPipeline "/api/dostk/order" (fun _ => .resp 500 "boom" none) =
      { result := .retryError .typeError, attempts := 3, notified := 3, httpCalls := 3 } ∧
    (3 : Nat) ≠ 1 := ⟨rfl, by decide⟩

/-- C5 (amended): `notifier.notify` runs once per failed attempt, inside
the retried function and before that attempt's raise: every attempt whose
response has a status of at least 400 other than 429 emits exactly one
notification, so a terminal failure whose three attempts all return such
responses notifies three times — retried attempts are not silent. -/
theorem c5_notify_per_attempt (endpoint : String) (atts : Nat → HttpAttempt)
    (hep : endpoint ≠ "")
    (hfail : ∀ i, ∃ status text json, atts i = .resp status text json ∧
      status ≠ 429 ∧ 400 ≤ status) :
    (∀ status text json, status ≠ 429 → 400 ≤ status →
      (requestAttempt endpoint (.resp status text json)).notified = 1) ∧
    (requestPipeline endpoint atts).notified = 3 ∧
    (requestPipeline endpoint atts).attempts = 3 ∧
    (requestPipeline endpoint atts).result = .retryError .typeError := by
  have hatt : ∀ i, requestAttempt endpoint (atts i) =
      { result := .error .typeError, notified := 1, httpCalls := 1 } := by
    intro i
    obtain ⟨status, text, json, heq, h429, h400⟩ := hfail i
    rw [heq]
    exact requestAttempt_notify endpoint hep status text json h429 h400
  have hpipe : requestPipeline endpoint atts =
      { result := .retryError .typeError, attempts := 3, notified := 3, httpCalls := 3 } := by
    unfold requestPipeline
    simp [retryExec, hatt]
  refine ⟨?_, by rw [hpipe], by rw [hpipe], by rw [hpipe]⟩
  intro status text json h429 h400
  rw [requestAttempt_notify endpoint hep status text json h429 h400]

/-- C5 witness: the amended theorem applied to a request whose three
attempts all answer 500. -/
theorem c5_notify_per_attempt_witness :
    (∀ status text json, status ≠ 429 → 400 ≤ status →
      (requestAttempt "/api/dostk/acnt" (.resp status text json)).notified = 1) ∧
    (requestPipeline "/api/dostk/acnt" (fun _ => .resp 500 "oops" none)).notified = 3 ∧
    (requestPipeline "/api/dostk/acnt" (fun _ => .resp 500 "oops" none)).attempts = 3 ∧
    (requestPipeline "/api/dostk/acnt" (fun _ => .resp 500 "oops" none)).result =
      .retryError .typeError :=
  c5_notify_per_attempt "/api/dostk/acnt" (fun _ => .resp 500 "oops" none)
    (by decide) (fun _ => ⟨500, "oops", none, rfl, by decide, by decide⟩)

/-- C7 counterexample: with an empty endpoint the pipeline runs the
attempt three times, not once — the `ConfigurationError` is retried like
any other exception and reaches the caller wrapped in a tenacity
`RetryError`. -/
theorem c7_counterexample :
    (requestPipeline "" (fun _ => .resp 200 "" (some "{}"))).attempts = 3 ∧
    (3 : Nat) ≠ 1 ∧
    (requestPipeline "" (fun _ => .resp 200 "" (some "{}"))).result =
      .retryError (.mlstock .configurationError) := ⟨rfl, by decide, rfl⟩

/-- C7 (amended): an empty endpoint path fails with `ConfigurationError`
before any network call on every attempt — no HTTP request is ever sent
and nothing is notified — but the retry decorator retries it like any
exception: three attempts are made and the failure reaches the caller as a
`RetryError` wrapping the `ConfigurationError`. -/
theorem c7_empty_endpoint (atts : Nat → HttpAttempt) :
    (requestPipeline "" atts).httpCalls = 0 ∧
    (requestPipeline "" atts).attempts = 3 ∧
    (requestPipeline "" atts).result = .retryError (.mlstock .configurationError) ∧
    (requestPipeline "" atts).notified = 0 :=
  ⟨rfl, rfl, rfl, rfl⟩

/-- Python truthiness of an optional row list: `None` and `[]` are falsy. -/
def truthyL (a : Option (List String)) : Bool :=
  match a with
  | none => false
  | some l => l ≠ []

/-- Python `a or b` on optional row lists. -/
def pyOrL (a b : Option (List String)) : Option (List String) :=
  if truthyL a then a else b

/-- Body of one account-overview page: the alternative row containers that
`get_account_overview` probes, each `none` when the key is absent.  Rows
are opaque strings; row payloads the claims never inspect are not
modelled. -/
structure OverviewBody where
  output1 : Option (List String)
  output : Option (List String)
  stk_acnt_evlt_prst : Option (List String)
  output2 : Option (List String)
  summary : Option (List String)
  deriving Repr, DecidableEq

/-- Holdings extraction of `get_account_overview` (kiwoom_client.py line
379): `output1 or output or stk_acnt_evlt_prst or []`. -/
def extractHoldings (b : OverviewBody) : List String :=
  (pyOrL b.output1 (pyOrL b.output b.stk_acnt_evlt_prst)).getD []

/-- Summary extraction (line 380): `output2 or summary or []`. -/
def extractSummaries (b : OverviewBody) : List String :=
  (pyOrL b.output2 b.summary).getD []

/-- Continuation header read by both pagination loops (kiwoom_client.py
line 390, candle_collector.py line 57): `cont-yn` falling back to
`Cont-Yn` then `"N"`, uppercased. -/
def contHeaderOf (h : List (String × String)) : String :=
  pyUpper ((pyOrS (dictGet h "cont-yn") (pyOrS (dictGet h "Cont-Yn") (some "N"))).getD "N")

/-- Next-key header read by both pagination loops (kiwoom_client.py line
391, candle_collector.py line 56): `next-key` falling back to `Next-Key`
then `""`. -/
def nextKeyOf (h : List (String × String)) : String :=
  (pyOrS (dictGet h "next-key") (pyOrS (dictGet h "Next-Key") (some ""))).getD ""

/-- One page response (body and response headers) served to
`get_account_overview`. -/
structure OverviewPage where
  body : OverviewBody
  headers : List (String × String)

/-- Loop state of `get_account_overview` (kiwoom_client.py lines 357-362). -/
structure OverviewState where
  holdings : List String
  summaries : List String
  rawPages : List OverviewBody
  contFlag : String
  nextKey : String

/-- The `for _ in range(50)` pagination loop of `get_account_overview`
(kiwoom_client.py lines 363-394): page `i` is requested, its rows are
accumulated, and the loop continues only when the response says `cont-yn:
Y` with a non-empty `next-key`. -/
def overviewLoop (pages : Nat → OverviewPage) : Nat → Nat → OverviewState → OverviewState
  | _, 0, st => st
  | i, fuel + 1, st =>
      let page := pages i
      let st1 : OverviewState :=
        { holdings := st.holdings ++ extractHoldings page.body
          summaries := st.summaries ++ extractSummaries page.body
          rawPages := st.rawPages ++ [page.body]
          contFlag := st.contFlag
          nextKey := nextKeyOf page.headers }
      if contHeaderOf page.headers ≠ "Y" ∨ nextKeyOf page.headers = "" then st1
      else overviewLoop pages (i + 1) fuel { st1 with contFlag := "Y" }

/-- Return value of `get_account_overview` (kiwoom_client.py lines
399-404). -/
structure OverviewResult where
  output1 : List String
  output2 : List String
  raw_pages : List OverviewBody
  next_key : String
  deriving Repr

/-- Embedding of `KiwoomRESTClient.get_account_overview` (kiwoom_client.py
lines 349-404), for a fixed resolved endpoint and account split: run the
pagination loop from a fresh state, capped at 50 pages, and assemble the
aggregated result (on exhausting the cap the code only logs a warning). -/
def getAccountOverview (pages : Nat → OverviewPage) : OverviewResult :=
  let final := overviewLoop pages 0 50 ⟨[], [], [], "N", ""⟩
  { output1 := final.holdings, output2 := final.summaries,
    raw_pages := final.rawPages, next_key := final.nextKey }

/-- Body of one candle/market page as `run_full_history` reads it:
`body.get("output", [])` and `body.get("stk_ddwkmm", [])`. -/
structure CandleBody where
  output : List String
  stk_ddwkmm : List String
  deriving Repr, DecidableEq

/-- One page response served to `run_full_history`. -/
structure CandlePage where
  body : CandleBody
  headers : List (String × String)

/-- Loop state of `run_full_history` (candle_collector.py lines 37-40). -/
structure HistoryState where
  aggregated : List String
  contFlag : String
  nextKey : String
  requests : Nat

/-- The `for _ in range(max_pages)` loop of
`CandleCollector.run_full_history` (candle_collector.py lines 41-60): one
client call per iteration (market or candle endpoint by `use_market_api`),
rows extended, continuation headers examined, loop continues only on
`cont-yn: Y` with a non-empty `next-key`. -/
def historyLoop (useMarket : Bool) (pages : Nat → CandlePage) :
    Nat → Nat → HistoryState → HistoryState
  | _, 0, st => st
  | i, fuel + 1, st =>
      let page := pages i
      let rows := if useMarket then page.body.stk_ddwkmm else page.body.output
      let st1 : HistoryState :=
        { aggregated := st.aggregated ++ rows
          contFlag := contHeaderOf page.headers
          nextKey := nextKeyOf page.headers
          requests := st.requests + 1 }
      if contHeaderOf page.headers ≠ "Y" ∨ nextKeyOf page.headers = "" then st1
      else historyLoop useMarket pages (i + 1) fuel st1

/-- Embedding of `CandleCollector.run_full_history` (candle_collector.py
lines 34-66): the aggregated rows it returns (under `output` or
`stk_ddwkmm`) and the number of page requests it made (on exhausting
`max_pages` the code only logs a warning). -/
def runFullHistory (useMarket : Bool) (pages : Nat → CandlePage) (max_pages : Nat) :
    List String × Nat :=
  let final := historyLoop useMarket pages 0 max_pages ⟨[], "N", "", 0⟩
  (final.aggregated, final.requests)

/-- Concatenation of the holdings of `fuel` consecutive overview pages
starting at page `i`. -/
def pagesHoldings (pages : Nat → OverviewPage) : Nat → Nat → List String
  | _, 0 => []
  | i, fuel + 1 => extractHoldings (pages i).body ++ pagesHoldings pages (i + 1) fuel

/-- Concatenation of the rows of `fuel` consecutive candle pages starting
at page `i`. -/
def pagesRows (useMarket : Bool) (pages : Nat → CandlePage) : Nat → Nat → List String
  | _, 0 => []
  | i, fuel + 1 =>
      (if useMarket then (pages i).body.stk_ddwkmm else (pages i).body.output) ++
        pagesRows useMarket pages (i + 1) fuel

/-- The overview loop requests at most `fuel` more pages than already
recorded. -/
theorem overviewLoop_rawPages_le (pages : Nat → OverviewPage) :
    ∀ (fuel i : Nat) (st : OverviewState),
    ((overviewLoop pages i fuel st).rawPages).length ≤ st.rawPages.length + fuel := by
  intro fuel
  induction fuel with
  | zero => intro i st; simp [overviewLoop]
  | succ n ih =>
    intro i st
    simp only [overviewLoop]
    split
    · simp only [List.length_append, List.length_singleton]
      omega
    · refine le_trans (ih (i + 1) _) ?_
      simp only [List.length_append, List.length_singleton]
      omega

/-- The history loop makes at most `fuel` more requests than already
counted. -/
theorem historyLoop_requests_le (useMarket : Bool) (pages : Nat → CandlePage) :
    ∀ (fuel i : Nat) (st : HistoryState),
    (historyLoop useMarket pages i fuel st).requests ≤ st.requests + fuel := by
  intro fuel
  induction fuel with
  | zero => intro i st; simp [historyLoop]
  | succ n ih =>
    intro i st
    simp only [historyLoop]
    split
    · dsimp only
      omega
    · refine le_trans (ih (i + 1) _) ?_
      dsimp only
      omega

/-- Under an upstream that always answers `cont-yn: Y` with a non-empty
`next-key`, the overview loop runs its full fuel, visiting one page per
unit of fuel and accumulating every page's holdings in order. -/
theorem overviewLoop_always_y (pages : Nat → OverviewPage)
    (hy : ∀ j, contHeaderOf (pages j).headers = "Y" ∧ nextKeyOf (pages j).headers ≠ "") :
    ∀ (fuel i : Nat) (st : OverviewState),
    (overviewLoop pages i fuel st).holdings = st.holdings ++ pagesHoldings pages i fuel ∧
    ((overviewLoop pages i fuel st).rawPages).length = st.rawPages.length + fuel := by
  intro fuel
  induction fuel with
  | zero => intro i st; simp [overviewLoop, pagesHoldings]
  | succ n ih =>
    intro i st
    rcases hy i with ⟨h1, h2⟩
    simp only [overviewLoop]
    rw [if_neg (by simp [h1, h2])]
    rcases ih (i + 1)
        { holdings := st.holdings ++ extractHoldings (pages i).body
          summaries := st.summaries ++ extractSummaries (pages i).body
          rawPages := st.rawPages ++ [(pages i).body]
          contFlag := "Y"
          nextKey := nextKeyOf (pages i).headers } with ⟨ha, hb⟩
    constructor
    · rw [ha]
      simp only [pagesHoldings, List.append_assoc]
    · rw [hb]
      simp only [List.length_append, List.length_singleton]
      omega

/-- Under an always-continuing upstream, the history loop runs its full
fuel, one request per unit of fuel, accumulating every page's rows. -/
theorem historyLoop_always_y (useMarket : Bool) (pages : Nat → CandlePage)
    (hy : ∀ j, contHeaderOf (pages j).headers = "Y" ∧ nextKeyOf (pages j).headers ≠ "") :
    ∀ (fuel i : Nat) (st : HistoryState),
    (historyLoop useMarket pages i fuel st).aggregated =
      st.aggregated ++ pagesRows useMarket pages i fuel ∧
    (historyLoop useMarket pages i fuel st).requests = st.requests + fuel := by
  intro fuel
  induction fuel with
  | zero => intro i st; simp [historyLoop, pagesRows]
  | succ n ih =>
    intro i st
    rcases hy i with ⟨h1, h2⟩
    simp only [historyLoop]
    rw [if_neg (by simp [h1, h2])]
    rcases ih (i + 1)
        { aggregated := st.aggregated ++
            (if useMarket then (pages i).body.stk_ddwkmm else (pages i).body.output)
          contFlag := contHeaderOf (pages i).headers
          nextKey := nextKeyOf (pages i).headers
          requests := st.requests + 1 } with ⟨ha, hb⟩
    constructor
    · rw [ha]
      simp only [pagesRows, List.append_assoc]
    · rw [hb]
      dsimp only
      omega

/-- C2: both pagination loops are capped — `get_account_overview` performs
at most 50 page requests and `run_full_history` at most `max_pages` — and
against a misbehaving upstream that always answers `cont-yn: Y` with a
non-empty `next-key` they perform exactly the cap's number of page
requests and still return the rows accumulated so far (hitting the cap
only logs a warning, it raises no error). -/
theorem c2_pagination_caps :
    (∀ pages : Nat → OverviewPage, ((getAccountOverview pages).raw_pages).length ≤ 50) ∧
    (∀ (useMarket : Bool) (pages : Nat → CandlePage) (max_pages : Nat),
      (runFullHistory useMarket pages max_pages).2 ≤ max_pages) ∧
    (∀ pages : Nat → OverviewPage,
      (∀ j, contHeaderOf (pages j).headers = "Y" ∧ nextKeyOf (pages j).headers ≠ "") →
      ((getAccountOverview pages).raw_pages).length = 50 ∧
      (getAccountOverview pages).output1 = pagesHoldings pages 0 50) ∧
    (∀ (useMarket : Bool) (pages : Nat → CandlePage) (max_pages : Nat),
      (∀ j, contHeaderOf (pages j).headers = "Y" ∧ nextKeyOf (pages j).headers ≠ "") →
      (runFullHistory useMarket pages max_pages).2 = max_pages ∧
      (runFullHistory useMarket pages max_pages).1 = pagesRows useMarket pages 0 max_pages) := by
  refine ⟨?_, ?_, ?_, ?_⟩
  · intro pages
    have h := overviewLoop_rawPages_le pages 50 0 ⟨[], [], [], "N", ""⟩
    simpa [getAccountOverview] using h
  · intro useMarket pages mp
    have h := historyLoop_requests_le useMarket pages mp 0 ⟨[], "N", "", 0⟩
    simpa [runFullHistory] using h
  · intro pages hy
    have h := overviewLoop_always_y pages hy 50 0 ⟨[], [], [], "N", ""⟩
    exact ⟨by simpa [getAccountOverview] using h.2, by simpa [getAccountOverview] using h.1⟩
  · intro useMarket pages mp hy
    have h := historyLoop_always_y useMarket pages hy mp 0 ⟨[], "N", "", 0⟩
    exact ⟨by simpa [runFullHistory] using h.2, by simpa [runFullHistory] using h.1⟩

/-- C2 witness: against a server that always continues, the overview loop
stops after exactly 50 pages and a 7-page history run after exactly 7. -/
theorem c2_pagination_caps_witness :
    ((getAccountOverview (fun _ =>
        ⟨⟨some ["h"], none, none, some ["s"], none⟩,
         [("cont-yn", "Y"), ("next-key", "K")]⟩)).raw_pages).length = 50 ∧
    (runFullHistory false (fun _ =>
        ⟨⟨["c"], []⟩, [("cont-yn", "Y"), ("next-key", "K")]⟩) 7).2 = 7 :=
  ⟨(c2_pagination_caps.2.2.1 (fun _ =>
      ⟨⟨some ["h"], none, none, some ["s"], none⟩,
       [("cont-yn", "Y"), ("next-key", "K")]⟩)
      (fun _ =>
        ⟨(by decide : contHeaderOf [("cont-yn", "Y"), ("next-key", "K")] = "Y"),
         (by decide : nextKeyOf [("cont-yn", "Y"), ("next-key", "K")] ≠ "")⟩)).1,
   (c2_pagination_caps.2.2.2 false (fun _ =>
      ⟨⟨["c"], []⟩, [("cont-yn", "Y"), ("next-key", "K")]⟩) 7
      (fun _ =>
        ⟨(by decide : contHeaderOf [("cont-yn", "Y"), ("next-key", "K")] = "Y"),
         (by decide : nextKeyOf [("cont-yn", "Y"), ("next-key", "K")] ≠ "")⟩)).1⟩
